import Mathlib

/-!
Verification of the PicScan row-enrichment pipeline.

This file gives a shallow embedding, in Lean 4, of the parts of the
repository that the specification's testable properties talk about:

* `speed_recognizer.py` — the content-addressed recognition cache and the
  `recognize_image` control flow (`calculate_image_hash`, `ImageCache.get`,
  `ImageCache.set`, `SpeedRecognizer.recognize_image`);
* `data_processor.py` — eligibility filtering, location partitioning and
  lower-index median selection of log samples (`parse_4g_log` /
  `parse_5g_log`), the DISPIMG-id versus descriptor image resolution
  (`process_excel`, `get_image_by_dispimg_id`, `get_image_for_row`), and
  `save_results`;
* `main.py` — the task execution state machine (`process_task`,
  `progress_callback`, `resume_task`, `resume_process_task`) including the
  cancellation protocol and resume gating.

Machine-level details that no claim depends on are embedded as explicit
parameters: the file system is a partial map from paths to byte lists, the
external OCR engine is a function from bytes to `Option String` (`none`
models `reader.readtext` raising), and the pure text-to-speeds pattern
extraction `extract_speed` is an opaque parameter `extract`, since every
statement proved here holds uniformly in it.  MD5 is modelled by a concrete
deterministic digest function: determinism is the only property of the
digest that the code's cache logic relies on.
-/

/-! ## String helpers (embedding Python `str` operations) -/

/-- Character-by-character test that `n` starts the list `h`
(Python's startswith on the character level). -/
def listStarts : List Char → List Char → Bool
  | [], _ => true
  | _ :: _, [] => false
  | a :: as, b :: bs => a == b && listStarts as bs

/-- Substring test on character lists: Python's `needle in hay`. -/
def hasSub (n : List Char) : List Char → Bool
  | [] => listStarts n []
  | c :: t => listStarts n (c :: t) || hasSub n (c :: t).tail

/-- Python `needle in hay` on strings. -/
def containsSub (needle hay : String) : Bool :=
  hasSub needle.data hay.data

/-- Python `str.upper`, modelled characterwise. -/
def upperStr (s : String) : String :=
  ⟨s.data.map Char.toUpper⟩

/-- Python `str.lower`, modelled characterwise. -/
def lowerStr (s : String) : String :=
  ⟨s.data.map Char.toLower⟩

/-- The whitespace characters stripped by Python `str.strip()` (ASCII
subset; the data at hand is ASCII-spaced). -/
def isWsChar (c : Char) : Bool :=
  c == ' ' || c == '\t' || c == '\n' || c == '\r' || c == '\x0c' || c == '\x0b'

/-- Python `str.strip()`. -/
def stripStr (s : String) : String :=
  ⟨((s.data.dropWhile isWsChar).reverse.dropWhile isWsChar).reverse⟩

/-- The characters before the first occurrence of `sep`:
Python `s.split(sep)[0]` (the whole string when `sep` does not occur). -/
def takeUntilSep (sep : List Char) : List Char → List Char
  | [] => []
  | c :: t => if listStarts sep (c :: t) then [] else c :: takeUntilSep sep t

/-! ## `speed_recognizer.py` -/

/-- The `{upload_speed, download_speed}` dictionary returned by
`SpeedRecognizer.recognize_image` / `extract_speed`.  Python floats are
modelled as rationals; `none` is Python `None`. -/
structure Reading where
  upload : Option Rat
  download : Option Rat
deriving DecidableEq

/-- One row of the sqlite `image_cache` table (timestamps omitted; no claim
mentions them). -/
structure CacheEntry where
  reading : Reading
  recognized_text : String
deriving DecidableEq

/-- State threaded through recognition calls: the persistent cache table
plus instrumentation counters that record how often each externally visible
operation ran (hash computations, cache reads, cache writes, OCR engine
invocations). -/
structure RecState where
  cache : List (Nat × CacheEntry)
  hashCalcs : Nat
  cacheGets : Nat
  cacheSets : Nat
  engineCalls : Nat
deriving DecidableEq

/-- `calculate_image_hash`: MD5 of the file content, modelled as a concrete
deterministic digest of the byte list.  The cache logic uses only that the
digest is a pure function of the bytes. -/
def calculate_image_hash (bytes : List Nat) : Nat :=
  bytes.foldl (fun a b => (a * 256 + b % 256) % (2 ^ 128)) 1

/-- `ImageCache.get`: sqlite point lookup by primary key `image_hash`. -/
def cacheGetRow (k : Nat) : List (Nat × CacheEntry) → Option CacheEntry
  | [] => none
  | (k', v) :: t => if k' = k then some v else cacheGetRow k t

/-- `ImageCache.set`: sqlite `INSERT OR REPLACE` keyed by `image_hash`. -/
def cacheSetRow (k : Nat) (v : CacheEntry) : List (Nat × CacheEntry) → List (Nat × CacheEntry)
  | [] => [(k, v)]
  | (k', v') :: t => if k' = k then (k, v) :: t else (k', v') :: cacheSetRow k v t

/-- `SpeedRecognizer.recognize_image` (with `enable_cache = True`, the
constructor default used by `DataProcessor`):

* `fs` is the file system (`os.path.exists` + reading the bytes);
* `reader` is the external OCR engine: `some text` is the concatenation
  `' '.join(item[1] for item in reader.readtext(path))`, and `none` models
  `readtext` raising, which the `except` clause turns into an all-`None`
  reading without touching the cache;
* `extract` is `extract_speed`, the pure pattern matching on the text.
-/
def recognize_image (fs : String → Option (List Nat)) (reader : List Nat → Option String)
    (extract : String → Reading) (st : RecState) (path : String) : Reading × RecState :=
  match fs path with
  | none => (⟨none, none⟩, st)
  | some bytes =>
    let digest := calculate_image_hash bytes
    let st1 : RecState := { st with hashCalcs := st.hashCalcs + 1 }
    let st2 : RecState := { st1 with cacheGets := st1.cacheGets + 1 }
    match cacheGetRow digest st2.cache with
    | some entry => (entry.reading, st2)
    | none =>
      match reader bytes with
      | some text =>
        let speeds := extract text
        let st3 : RecState := { st2 with engineCalls := st2.engineCalls + 1 }
        let st4 : RecState := { st3 with cacheSets := st3.cacheSets + 1,
                                         cache := cacheSetRow digest ⟨speeds, text⟩ st3.cache }
        (speeds, st4)
      | none => (⟨none, none⟩, { st2 with engineCalls := st2.engineCalls + 1 })

/-- Reading back a key just written by `INSERT OR REPLACE` yields the
written row. -/
theorem cacheGetRow_cacheSetRow_self (k : Nat) (v : CacheEntry) (c : List (Nat × CacheEntry)) :
    cacheGetRow k (cacheSetRow k v c) = some v := by
  induction c with
  | nil => simp [cacheSetRow, cacheGetRow]
  | cons hd t ih =>
    obtain ⟨k', v'⟩ := hd
    by_cases h : k' = k
    · simp [cacheSetRow, cacheGetRow, h]
    · simp [cacheSetRow, cacheGetRow, h, ih]

/-! ## Concrete instances used by witnesses for the recognizer claims -/

/-- A file system with no files at all. -/
def fsEmpty : String → Option (List Nat) := fun _ => none

/-- A file system holding a single one-byte image. -/
def fsOne : String → Option (List Nat) := fun p => if p = "img.png" then some [7] else none

/-- An engine whose invocation always raises (unreadable image / engine
exception). -/
def readerNone : List Nat → Option String := fun _ => none

/-- An engine that always succeeds and recognizes the same text. -/
def readerSome : List Nat → Option String := fun _ => some ("text")

/-- An extraction in which both speed patterns miss. -/
def extractNone : String → Reading := fun _ => ⟨none, none⟩

/-- The recognizer state at first process start: empty cache, no calls yet. -/
def recSt0 : RecState := ⟨[], 0, 0, 0, 0⟩

/-- C10: for a path that does not name an existing file, `recognize_image`
returns an all-absent reading at once and the state — cache content and
every instrumentation counter (hash computations, cache reads, cache
writes, engine invocations) — is untouched. -/
theorem C10_missing_path_no_effect (fs : String → Option (List Nat))
    (reader : List Nat → Option String) (extract : String → Reading)
    (st : RecState) (path : String) (h : fs path = none) :
    recognize_image fs reader extract st path = (⟨none, none⟩, st) := by
  simp [recognize_image, h]

/-- Witness for C10 at a concrete missing path. -/
theorem C10_missing_path_no_effect_witness :
    fsEmpty ("missing.png") = none ∧
    recognize_image fsEmpty readerNone extractNone recSt0 ("missing.png") = (⟨none, none⟩, recSt0) :=
  ⟨rfl, C10_missing_path_no_effect fsEmpty readerNone extractNone recSt0 ("missing.png") rfl⟩

/-- C5: on a cache miss, if the engine invocation succeeds then the outcome
is stored keyed by the content digest (for every extraction result, hence
also when both extracted values are absent); if the engine invocation
raises, the reading degrades to all-absent, the cache is unchanged, and a
second encounter with the same image invokes the engine again. -/
theorem C5_cache_success_only (fs : String → Option (List Nat))
    (reader : List Nat → Option String) (extract : String → Reading)
    (st0 : RecState) (p : String) (b : List Nat)
    (h1 : fs p = some b)
    (h2 : cacheGetRow (calculate_image_hash b) st0.cache = none) :
    (∀ txt, reader b = some txt →
      (recognize_image fs reader extract st0 p).1 = extract txt ∧
      (recognize_image fs reader extract st0 p).2.cache
        = cacheSetRow (calculate_image_hash b) ⟨extract txt, txt⟩ st0.cache) ∧
    (reader b = none →
      (recognize_image fs reader extract st0 p).1 = ⟨none, none⟩ ∧
      (recognize_image fs reader extract st0 p).2.cache = st0.cache ∧
      (recognize_image fs reader extract ((recognize_image fs reader extract st0 p).2) p).2.engineCalls
        = (recognize_image fs reader extract st0 p).2.engineCalls + 1) := by
  constructor
  · intro txt h3
    simp [recognize_image, h1, h2, h3]
  · intro h3
    simp [recognize_image, h1, h2, h3]

/-- Witness for C5, applying the theorem at a succeeding engine whose
extraction misses both values (the entry is cached anyway) and at a raising
engine (nothing cached, the second call re-invokes the engine). -/
theorem C5_cache_success_only_witness :
    fsOne ("img.png") = some [7] ∧
    cacheGetRow (calculate_image_hash [7]) recSt0.cache = none ∧
    readerSome [7] = some ("text") ∧
    ((recognize_image fsOne readerSome extractNone recSt0 ("img.png")).1 = extractNone ("text") ∧
      (recognize_image fsOne readerSome extractNone recSt0 ("img.png")).2.cache
        = cacheSetRow (calculate_image_hash [7]) ⟨extractNone ("text"), "text"⟩ recSt0.cache) ∧
    readerNone [7] = none ∧
    ((recognize_image fsOne readerNone extractNone recSt0 ("img.png")).1 = ⟨none, none⟩ ∧
      (recognize_image fsOne readerNone extractNone recSt0 ("img.png")).2.cache = recSt0.cache ∧
      (recognize_image fsOne readerNone extractNone
          ((recognize_image fsOne readerNone extractNone recSt0 ("img.png")).2) ("img.png")).2.engineCalls
        = (recognize_image fsOne readerNone extractNone recSt0 ("img.png")).2.engineCalls + 1) :=
  ⟨rfl, rfl, rfl,
    (C5_cache_success_only fsOne readerSome extractNone recSt0 ("img.png") [7] rfl rfl).1 ("text") rfl,
    rfl,
    (C5_cache_success_only fsOne readerNone extractNone recSt0 ("img.png") [7] rfl rfl).2 rfl⟩

/-- C4, counterexample: with an engine whose invocation raises on an
unreadable image (a failure mode the specification itself allows for, and
which is not cached), recognizing the same byte content twice performs two
engine invocations — the claimed "at most once across the two calls" is
violated. -/
theorem C4_counterexample :
    (recognize_image fsOne readerNone extractNone
        ((recognize_image fsOne readerNone extractNone recSt0 ("img.png")).2) ("img.png")).2.engineCalls
      = 2 ∧ ¬ (2 ≤ 1) := by
  constructor
  · decide
  · decide

/-- C4, amended: recognizing byte-identical content twice returns the
identical reading both times and, provided the engine invocation does not
raise, invokes the engine at most once across the two calls (second call is
a cache hit). -/
theorem C4_idempotent_engine_succeeds (fs : String → Option (List Nat))
    (reader : List Nat → Option String) (extract : String → Reading)
    (st0 : RecState) (p1 p2 : String) (b : List Nat) (txt : String)
    (h1 : fs p1 = some b) (h2 : fs p2 = some b) (h3 : reader b = some txt) :
    ((recognize_image fs reader extract ((recognize_image fs reader extract st0 p1).2) p2).1
       = (recognize_image fs reader extract st0 p1).1) ∧
    (recognize_image fs reader extract ((recognize_image fs reader extract st0 p1).2) p2).2.engineCalls
       ≤ st0.engineCalls + 1 := by
  cases hm : cacheGetRow (calculate_image_hash b) st0.cache with
  | some e =>
    refine ⟨?_, ?_⟩ <;> simp [recognize_image, h1, h2, hm]
  | none =>
    refine ⟨?_, ?_⟩ <;>
      simp [recognize_image, h1, h2, h3, hm, cacheGetRow_cacheSetRow_self]

/-- Witness for the amended C4 at a concrete image and succeeding engine. -/
theorem C4_idempotent_engine_succeeds_witness :
    fsOne ("img.png") = some [7] ∧ readerSome [7] = some ("text") ∧
    (((recognize_image fsOne readerSome extractNone
          ((recognize_image fsOne readerSome extractNone recSt0 ("img.png")).2) ("img.png")).1
        = (recognize_image fsOne readerSome extractNone recSt0 ("img.png")).1) ∧
      (recognize_image fsOne readerSome extractNone
          ((recognize_image fsOne readerSome extractNone recSt0 ("img.png")).2) ("img.png")).2.engineCalls
        ≤ recSt0.engineCalls + 1) :=
  ⟨rfl, rfl,
    C4_idempotent_engine_succeeds fsOne readerSome extractNone recSt0
      ("img.png") ("img.png") [7] ("text") rfl rfl rfl⟩

/-! ## `data_processor.py`: log sample reduction (`parse_4g_log` / `parse_5g_log`) -/

/-- The test applied to every required log field before a row is usable:
`val and val != '' and val.lower() != 'none'`. -/
def present (s : String) : Bool :=
  s != "" && lowerStr s != "none"

/-- All characters are decimal digits. -/
def allDigits (l : List Char) : Bool := l.all Char.isDigit

/-- Value of a list of decimal digits. -/
def digitsVal (l : List Char) : Nat := l.foldl (fun a c => a * 10 + (c.toNat - 48)) 0

/-- Unsigned decimal numeral, optionally with a fractional part. -/
def parseUnsigned (l : List Char) : Option Rat :=
  let ip := l.takeWhile (fun c => c != '.')
  match l.dropWhile (fun c => c != '.') with
  | [] => if !ip.isEmpty && allDigits ip then some ((digitsVal ip : Rat)) else none
  | '.' :: frac =>
    if allDigits ip && allDigits frac && (!ip.isEmpty || !frac.isEmpty) then
      some ((digitsVal ip : Rat) + (digitsVal frac : Rat) / ((10 : Rat) ^ frac.length))
    else none
  | _ => none

/-- Python `float(s)` on an already-stripped string, restricted to plain
decimal numerals (an optional minus sign, digits, an optional fractional
part) — the shape RSRP values in the logs take.  Any other input models
`float` raising `ValueError`, which the code catches with `continue`. -/
def parseDec? (s : String) : Option Rat :=
  match s.data with
  | '-' :: rest => (parseUnsigned rest).map (fun q => -q)
  | l => parseUnsigned l

/-- One data row of a log table, restricted to the five fields the reducer
reads (4G names shown; the 5G parser is the same algorithm over `NR-CI`,
`SS-RSRP`, `SS-SINR`). -/
structure Sample where
  eci : String
  rsrp : String
  sinr : String
  lon : String
  lat : String
deriving DecidableEq

/-- The filtering loop of `parse_4g_log` / `parse_5g_log`: keep only rows
whose identifier, power and interference-ratio fields are all present and
whose power parses as a number, and partition them into
`valid_rows_with_loc` and `valid_rows_without_loc` preserving file order. -/
def classify : List Sample → List (Rat × Sample) × List (Rat × Sample)
  | [] => ([], [])
  | s :: t =>
    let (wl, wo) := classify t
    if present s.eci && present s.rsrp && present s.sinr then
      match parseDec? s.rsrp with
      | some r =>
        if present s.lon && present s.lat then ((r, s) :: wl, wo) else (wl, (r, s) :: wo)
      | none => (wl, wo)
    else (wl, wo)

/-- Ordering by the power (RSRP) component: `key=lambda x: x[0]`. -/
def keyLe {α : Type} (a b : Rat × α) : Prop := a.1 ≤ b.1

instance keyLeDecidable {α : Type} : DecidableRel (@keyLe α) :=
  fun a b => inferInstanceAs (Decidable (a.1 ≤ b.1))

instance keyLeTotal {α : Type} : IsTotal (Rat × α) keyLe :=
  ⟨fun a b => le_total a.1 b.1⟩

instance keyLeTrans {α : Type} : IsTrans (Rat × α) keyLe :=
  ⟨fun _ _ _ h1 h2 => le_trans h1 h2⟩

/-- `rows.sort(key=lambda x: x[0])`: a stable ascending sort by power.
Python's stable sort is embedded as stable insertion sort, which agrees
with it on every input. -/
def sortByPower {α : Type} (l : List (Rat × α)) : List (Rat × α) :=
  List.insertionSort keyLe l

/-- `median_idx = len(rows) // 2; rows.sort(...); rows[median_idx]` applied
to a non-empty list (the code guards with `if rows:` / truthiness). -/
def select_median {α : Type} : List (Rat × α) → Option (Rat × α)
  | [] => none
  | a :: t => (sortByPower (a :: t)).get? ((a :: t).length / 2)

/-- The partition choice + median selection of `parse_4g_log` (lines
612-623) and `parse_5g_log` (lines 870-881): prefer the with-location
partition whenever it is non-empty, else fall back to the without-location
partition, else no representative. -/
def reduce_log (samples : List Sample) : Option (Rat × Sample) :=
  match classify samples with
  | (wl, wo) =>
    match wl with
    | _ :: _ => select_median wl
    | [] =>
      match wo with
      | _ :: _ => select_median wo
      | [] => none

theorem select_median_eq_get {α : Type} (pairs : List (Rat × α)) (h : pairs ≠ []) :
    select_median pairs = (sortByPower pairs).get? (pairs.length / 2) := by
  cases pairs with
  | nil => exact absurd rfl h
  | cons a t => rfl

theorem select_median_mem {α : Type} (pairs : List (Rat × α)) (h : pairs ≠ []) :
    ∃ v, select_median pairs = some v ∧ v ∈ pairs := by
  have hlen : (sortByPower pairs).length = pairs.length :=
    (List.perm_insertionSort _ pairs).length_eq
  have hpos : 0 < pairs.length := List.length_pos.mpr h
  have hlt : pairs.length / 2 < (sortByPower pairs).length := by
    rw [hlen]; exact Nat.div_lt_self hpos (by omega)
  refine ⟨(sortByPower pairs).get ⟨pairs.length / 2, hlt⟩, ?_, ?_⟩
  · rw [select_median_eq_get pairs h, List.get?_eq_get hlt]
  · exact (List.perm_insertionSort _ pairs).subset (List.get_mem _ _ _)

/-- The spec's even-count example: power values `[1, 2, 3, 4]` (second
components number the samples in file order). -/
def pairs4 : List (Rat × Nat) := [(1, 0), (2, 1), (3, 2), (4, 3)]

/-- C2, counterexample: on `[1, 2, 3, 4]` the reducer selects sorted index
`⌊4/2⌋ = 2`, the pair with power 3 — but the lower of the two middle
elements of the sorted list is the pair with power 2 at index 1, and the
selection is not that pair.  The claim's "for even counts this is the
lower of the two middle elements" clause is false of the code. -/
theorem C2_counterexample :
    select_median pairs4 = some (3, 2) ∧
    (sortByPower pairs4).get? 1 = some (2, 1) ∧
    select_median pairs4 ≠ some (2, 1) := by
  refine ⟨?_, ?_, ?_⟩ <;> decide

/-- C2, amended: for every non-empty chosen partition the reducer sorts
ascending by power and selects the element at index `⌊count/2⌋`; the
selection is an element of the partition (never an average), and for even
counts it is the upper of the two middle elements — its power is at least
the power at index `⌊count/2⌋ - 1` of the sorted sequence. -/
theorem C2_sorted_upper_median {α : Type} (pairs : List (Rat × α)) (h : pairs ≠ []) :
    ∃ v, select_median pairs = some v ∧
      (sortByPower pairs).get? (pairs.length / 2) = some v ∧
      v ∈ pairs ∧
      List.Sorted keyLe (sortByPower pairs) ∧
      ∀ w, (sortByPower pairs).get? (pairs.length / 2 - 1) = some w → w.1 ≤ v.1 := by
  have hlen : (sortByPower pairs).length = pairs.length :=
    (List.perm_insertionSort _ pairs).length_eq
  have hpos : 0 < pairs.length := List.length_pos.mpr h
  have hlt : pairs.length / 2 < (sortByPower pairs).length := by
    rw [hlen]; exact Nat.div_lt_self hpos (by omega)
  refine ⟨(sortByPower pairs).get ⟨pairs.length / 2, hlt⟩, ?_, ?_, ?_, ?_, ?_⟩
  · rw [select_median_eq_get pairs h, List.get?_eq_get hlt]
  · exact List.get?_eq_get hlt
  · exact (List.perm_insertionSort _ pairs).subset (List.get_mem _ _ _)
  · exact List.sorted_insertionSort _ pairs
  · intro w hw
    rcases List.get?_eq_some.mp hw with ⟨hw1, hw2⟩
    by_cases h0 : pairs.length / 2 = 0
    · have : pairs.length / 2 - 1 = pairs.length / 2 := by omega
      subst hw2
      simp only [this]
      exact le_rfl
    · have hij : pairs.length / 2 - 1 < pairs.length / 2 := by omega
      have hrel := (List.sorted_insertionSort (@keyLe α) pairs).rel_get_of_lt
        (a := ⟨pairs.length / 2 - 1, hw1⟩) (b := ⟨pairs.length / 2, hlt⟩) hij
      rw [← hw2]
      exact hrel

/-- Witness for the amended C2 on the spec's `[1, 2, 3, 4]` partition. -/
theorem C2_sorted_upper_median_witness :
    pairs4 ≠ [] ∧
    ∃ v, select_median pairs4 = some v ∧
      (sortByPower pairs4).get? (pairs4.length / 2) = some v ∧
      v ∈ pairs4 ∧
      List.Sorted keyLe (sortByPower pairs4) ∧
      ∀ w, (sortByPower pairs4).get? (pairs4.length / 2 - 1) = some w → w.1 ≤ v.1 :=
  ⟨by decide, C2_sorted_upper_median pairs4 (by decide)⟩

/-- C3: whenever the with-location partition of the eligible samples is
non-empty, the representative sample is drawn from it — whatever the
without-location partition holds and however much larger it is. -/
theorem C3_location_preference (samples : List Sample)
    (h : (classify samples).1 ≠ []) :
    ∃ p, p ∈ (classify samples).1 ∧ reduce_log samples = some p := by
  obtain ⟨v, hv, hmem⟩ := select_median_mem _ h
  refine ⟨v, hmem, ?_⟩
  rw [show reduce_log samples = select_median (classify samples).1 from ?_]
  · exact hv
  · unfold reduce_log
    rcases hc : classify samples with ⟨wl, wo⟩
    rw [hc] at h
    cases wl with
    | nil => exact absurd rfl h
    | cons a t => rfl

/-- The spec's location-preference example: one eligible sample carrying
longitude/latitude among nine eligible samples without them. -/
def samplesOneLoc : List Sample :=
  [⟨"100", "-90", "5", "113.1", "23.5"⟩,
   ⟨"1", "-80", "1", "", ""⟩, ⟨"2", "-81", "1", "", ""⟩, ⟨"3", "-82", "1", "", ""⟩,
   ⟨"4", "-83", "1", "", ""⟩, ⟨"5", "-84", "1", "", ""⟩, ⟨"6", "-85", "1", "", ""⟩,
   ⟨"7", "-86", "1", "", ""⟩, ⟨"8", "-87", "1", "", ""⟩, ⟨"9", "-88", "1", "", ""⟩]

/-- Witness for C3 at the one-with-location / nine-without sample set. -/
theorem C3_location_preference_witness :
    (classify samplesOneLoc).1 ≠ [] ∧
    ∃ p, p ∈ (classify samplesOneLoc).1 ∧ reduce_log samplesOneLoc = some p :=
  ⟨by decide, C3_location_preference samplesOneLoc (by decide)⟩

/-! ## `data_processor.py`: row-to-image resolution (`process_excel` lines
278-295, `get_image_by_dispimg_id`, `get_image_for_row`) -/

/-- Greedy `\s*`: drop leading whitespace. -/
def dropWs : List Char → List Char
  | c :: t => if c == ' ' || c == '\t' || c == '\n' || c == '\r' then dropWs t else c :: t
  | [] => []

/-- Case-insensitive literal match of `k` at the head of the input,
returning the rest on success (the `re.IGNORECASE` flag). -/
def matchCI : List Char → List Char → Option (List Char)
  | [], rest => some rest
  | _ :: _, [] => none
  | k :: ks, c :: cs => if k.toUpper == c.toUpper then matchCI ks cs else none

/-- Attempt the pattern `DISPIMG\s*\(\s*"([^"]+)"` at the head of the
input, returning the capture group. -/
def matchDispimgAt (l : List Char) : Option String :=
  match matchCI ("DISPIMG").data l with
  | none => none
  | some r1 =>
    match dropWs r1 with
    | '(' :: r2 =>
      match dropWs r2 with
      | '"' :: r3 =>
        let cap := r3.takeWhile (fun c => c != '"')
        match r3.dropWhile (fun c => c != '"') with
        | '"' :: _ => if cap.isEmpty then none else some ⟨cap⟩
        | _ => none
      | _ => none
    | _ => none

/-- `re.search(r'DISPIMG\s*\(\s*"([^"]+)"', value, re.IGNORECASE)`:
leftmost match of the pattern, yielding the captured DISPIMG id. -/
def searchDispimg : List Char → Option String
  | [] => none
  | c :: t =>
    match matchDispimgAt (c :: t) with
    | some s => some s
    | none => searchDispimg t

/-- The four legacy log-filename cells that `get_image_for_row` reads from
`row_data`. -/
structure RowData where
  log4g1 : String
  log4g2 : String
  log5g1 : String
  log5g2 : String
deriving DecidableEq

/-- Fuel-indexed helper for `removeSub`; every step consumes at least one
character, so fuel equal to the input length suffices. -/
def removeSubAux (c0 : Char) (cs : List Char) : Nat → List Char → List Char
  | _, [] => []
  | 0, l => l
  | fuel + 1, c :: t =>
    if listStarts (c0 :: cs) (c :: t) then removeSubAux c0 cs fuel (t.drop cs.length)
    else c :: removeSubAux c0 cs fuel t

/-- Python `str.replace(old, new)` with `new = ''`: delete every
(non-overlapping, left-to-right) occurrence of `c0 :: cs`. -/
def removeSub (c0 : Char) (cs : List Char) (l : List Char) : List Char :=
  removeSubAux c0 cs l.length l

/-- `log_name.replace(':', '_').replace('.csv', '').replace('.CSV', '')`. -/
def normalizeLogName (s : String) : String :=
  ⟨removeSub '.' ("CSV").data (removeSub '.' ("csv").data
      (s.data.map (fun c => if c == ':' then '_' else c)))⟩

/-- The candidate log names collected at the top of `get_image_for_row`:
each non-empty field is stripped and normalized. -/
def rowLogNames (row : RowData) : List String :=
  [row.log4g1, row.log4g2, row.log5g1, row.log5g2].filterMap (fun log =>
    if log != "" then
      let n := stripStr log
      if n != "" then some (normalizeLogName n) else none
    else none)

/-- The generation keyword required of a descriptor, from the column name. -/
def targetKeywords (columnName : String) : List String :=
  if containsSub ("5G速率图") columnName then [("5G速率图" : String)]
  else if containsSub ("4G速率图") columnName then [("4G速率图" : String)]
  else []

/-- `DataProcessor.get_image_for_row`: strict descriptor matching — the
first image whose descriptor contains both the timestamp+phone key (the
part of a candidate log name before `--`) and a generation keyword; `none`
when nothing matches.  Images are the `descr → path` table in insertion
order; paths are numbered. -/
def get_image_for_row (row : RowData) (columnName : String)
    (images : List (String × Nat)) : Option Nat :=
  if images.isEmpty then none
  else
    (rowLogNames row).findSome? (fun logName =>
      let timePhone := stripStr ⟨takeUntilSep ("--" : String).data logName.data⟩
      if timePhone == "" then none
      else
        images.findSome? (fun di =>
          if containsSub timePhone di.1 && (targetKeywords columnName).any
              (fun kw => containsSub kw di.1) then
            some di.2
          else none))

/-- The 5G-speed-chart resolution step of `process_excel` (lines 278-295):
first the DISPIMG route — substring guard, regex extraction of the id,
lookup in the `dispimg_to_image` table built by the evidence extractor —
then, only if that produced nothing, the descriptor fallback
`get_image_for_row`.  The boolean records whether the fallback was
consulted. -/
def resolve_speed_5g_image (cellValue : String) (dispimgMap : List (String × Nat))
    (row : RowData) (images : List (String × Nat)) : Option Nat × Bool :=
  let viaId : Option Nat :=
    if containsSub ("DISPIMG") (upperStr cellValue) then
      match searchDispimg cellValue.data with
      | some id => dispimgMap.lookup id
      | none => none
    else none
  match viaId with
  | some img => (some img, false)
  | none => (get_image_for_row row ("5G速率图（移动爱家）") images, true)

/-- C6: when the screenshot cell contains a DISPIMG reference expression
whose id is present in the embedded-object-id map, resolution returns that
id-based match and the descriptor fallback is not consulted; when there is
no such expression or the id lookup misses, resolution is exactly the
descriptor fallback (and only then is it consulted). -/
theorem C6_dispimg_precedence (cellValue : String) (dispimgMap : List (String × Nat))
    (row : RowData) (images : List (String × Nat)) :
    (∀ id img, containsSub ("DISPIMG") (upperStr cellValue) = true →
      searchDispimg cellValue.data = some id →
      dispimgMap.lookup id = some img →
      resolve_speed_5g_image cellValue dispimgMap row images = (some img, false)) ∧
    ((containsSub ("DISPIMG") (upperStr cellValue) = false ∨
        searchDispimg cellValue.data = none ∨
        ∀ id, searchDispimg cellValue.data = some id → dispimgMap.lookup id = none) →
      resolve_speed_5g_image cellValue dispimgMap row images
        = (get_image_for_row row ("5G速率图（移动爱家）") images, true)) := by
  constructor
  · intro id img h1 h2 h3
    simp [resolve_speed_5g_image, h1, h2, h3]
  · intro h
    rcases h with h | h | h
    · simp [resolve_speed_5g_image, h]
    · simp [resolve_speed_5g_image, h]
    · by_cases h1 : containsSub ("DISPIMG") (upperStr cellValue) = true
      · cases h2 : searchDispimg cellValue.data with
        | none => simp [resolve_speed_5g_image, h1, h2]
        | some id => simp [resolve_speed_5g_image, h1, h2, h id h2]
      · simp [resolve_speed_5g_image, h1]

/-- A one-entry embedded-object-id table for the C6 witness. -/
def dmapW : List (String × Nat) := [("ID_ABC", 93)]

/-- A row whose 5G log field would also produce a descriptor match. -/
def rowW : RowData := ⟨"", "", "2025_11_22 11:08_13392507898--abc.csv", ""⟩

/-- A descriptor table containing a plausible descriptor match (image 7),
distinct from the id-mapped image 93. -/
def imagesW : List (String × Nat) := [("2025_11_22 11_08_13392507898--5G速率图", 7)]

/-- Witness for C6: a DISPIMG formula cell resolves to the id-mapped image
93 without consulting the fallback, even though a descriptor match (image
7) exists; a plain-text cell goes to the descriptor fallback. -/
theorem C6_dispimg_precedence_witness :
    containsSub ("DISPIMG") (upperStr ("=_xlfn.DISPIMG(\"ID_ABC\",1)")) = true ∧
    searchDispimg ("=_xlfn.DISPIMG(\"ID_ABC\",1)" : String).data = some ("ID_ABC") ∧
    dmapW.lookup ("ID_ABC") = some 93 ∧
    resolve_speed_5g_image ("=_xlfn.DISPIMG(\"ID_ABC\",1)") dmapW rowW imagesW
      = (some 93, false) ∧
    get_image_for_row rowW ("5G速率图（移动爱家）") imagesW = some 7 ∧
    containsSub ("DISPIMG") (upperStr ("手动截图")) = false ∧
    resolve_speed_5g_image ("手动截图") dmapW rowW imagesW
      = (get_image_for_row rowW ("5G速率图（移动爱家）") imagesW, true) :=
  ⟨by decide, by decide, by decide,
   (C6_dispimg_precedence ("=_xlfn.DISPIMG(\"ID_ABC\",1)") dmapW rowW imagesW).1
     ("ID_ABC") 93 (by decide) (by decide) (by decide),
   by decide,
   by decide,
   (C6_dispimg_precedence ("手动截图") dmapW rowW imagesW).2 (Or.inl (by decide))⟩

/-! ## `data_processor.py`: `save_results` -/

/-- One enriched row result: the dictionary appended to `partial_results`
(values stringified, absent modelled as `""`). -/
abbrev RowRes := List (String × String)

/-- The fixed output column order of `save_results`. -/
def fieldnames : List String :=
  ["工单号", "经度", "纬度", "上传速率Mbps", "下载速率Mbps",
   "ECI", "RSRP", "SINR", "NR-CI", "SS-RSRP", "SS-SINR"]

/-- `result.get(k, '')`. -/
def resGet (r : RowRes) (k : String) : String := (r.lookup k).getD ""

/-- `DataProcessor.save_results`: `existing` is the current content of the
output CSV path (`none` = no file).  An empty result list returns before
opening the file; otherwise the file is replaced by a header row plus one
row per result in the fixed column order. -/
def save_results (results : List RowRes) (existing : Option (List (List String))) :
    Option (List (List String)) :=
  match results with
  | [] => existing
  | _ :: _ => some (fieldnames :: results.map (fun r => fieldnames.map (resGet r)))

/-- C9: `save_results` on an empty result list leaves the output file
exactly as it was (none is created, truncated or written); on a non-empty
list it writes the header plus one row per result in the fixed column
order. -/
theorem C9_save_results_empty_noop (results : List RowRes)
    (existing : Option (List (List String))) :
    (results = [] → save_results results existing = existing) ∧
    (results ≠ [] → save_results results existing
      = some (fieldnames :: results.map (fun r => fieldnames.map (resGet r)))) := by
  constructor
  · intro h; subst h; rfl
  · intro h
    cases results with
    | nil => exact absurd rfl h
    | cons a t => rfl

/-- A result row for the C9 witness. -/
def rowResW : RowRes := [("工单号", "A1"), ("RSRP", "-90")]

/-- Witness for C9: an empty save leaves a pre-existing file untouched; a
one-row save writes header plus the row. -/
theorem C9_save_results_empty_noop_witness :
    save_results [] (some [["old"]]) = some [["old"]] ∧
    save_results [rowResW] none
      = some (fieldnames :: [rowResW].map (fun r => fieldnames.map (resGet r))) :=
  ⟨(C9_save_results_empty_noop [] (some [["old"]])).1 rfl,
   (C9_save_results_empty_noop [rowResW] none).2 (by decide)⟩

/-! ## `main.py`: task execution state machine -/

/-- One spreadsheet data row: the order-id cell (`工单号`) plus the other
cells the enrichment reads. -/
structure Row where
  oid : String
  cells : List (String × String)
deriving DecidableEq

/-- The serializable fields of the in-memory task record `tasks[task_id]`
(`partResults` is `partial_results` in `main.py`; timestamps omitted). -/
structure TaskState where
  status : String
  progress : Nat
  message : String
  result : Option Nat
  error : Option String
  partResults : List RowRes
  totalRows : Nat
  processedRows : Nat
  cancelled : Bool
deriving DecidableEq

/-- The task record created by `upload_file` (lines 190-202). -/
def initial_task : TaskState :=
  { status := "processing", progress := 0, message := "开始处理...",
    result := none, error := none, partResults := [], totalRows := 0,
    processedRows := 0, cancelled := false }

/-- The cooperative cancellation flag as observed at successive row
boundaries.  `cancel_task` sets the flag once and it is never cleared
during the run, so the observation history is monotone: `some n` means the
flag is set just before the `n`-th (0-based) row-boundary check, `none`
that it is never set during the run. -/
def cancel_flag_at (m : Option Nat) (k : Nat) : Bool :=
  match m with
  | some n => decide (n ≤ k)
  | none => false

/-- `progress_callback` in `process_task` (lines 625-647): under the task
lock, read the cancellation flag; if set, return `False` without touching
the record; otherwise append the row result, update the counters, progress
and message, persist, and return `True`.  (The float progress
`int(15 + current/total*75)` is approximated by natural division and the
f-string message by a constant; no claim mentions either.) -/
def progress_callback (cancelledNow : Bool) (current total : Nat) (result : RowRes)
    (t : TaskState) : TaskState × Bool :=
  if cancelledNow then (t, false)
  else
    ({ t with partResults := t.partResults ++ [result],
              totalRows := total,
              processedRows := current,
              progress := 15 + current * 75 / total,
              message := "正在解析" }, true)

/-- `valid_rows` in `process_excel` (line 263): data rows whose order-id
cell is non-empty. -/
def valid_rows (rows : List Row) : List Row :=
  rows.filter (fun r => r.oid != "")

/-- The per-row loop of `process_excel` (lines 267-397): enrich the row
(`f`, the work covered by the reducer/recognizer claims), append it to the
local `results` list, then invoke the progress callback; a `False` return
breaks the loop.  Returns the final task record, the local `results` list,
and whether the loop ran to completion. -/
def process_excel_rows (f : Row → RowRes) (flag : Nat → Bool) (total : Nat) :
    List Row → Nat → TaskState → TaskState × List RowRes × Bool
  | [], _, t => (t, [], true)
  | r :: rs, idx, t =>
    let res := f r
    match progress_callback (flag idx) (idx + 1) total res t with
    | (t', false) => (t', [res], false)
    | (t', true) =>
      match process_excel_rows f flag total rs (idx + 1) t' with
      | (t'', others, done) => (t'', res :: others, done)

/-- `DataProcessor.process_excel` run over the valid rows with the task's
progress callback. -/
def process_excel (f : Row → RowRes) (flag : Nat → Bool) (rows : List Row)
    (t : TaskState) : TaskState × List RowRes :=
  let valid := valid_rows rows
  match process_excel_rows f flag valid.length valid 0 t with
  | (t', results, _) => (t', results)

/-- The task record just before parsing starts (`process_task` lines
616-622; the workbook has been located). -/
def task_parsing : TaskState :=
  { initial_task with message := "正在提取图片和解析数据...", progress := 15 }

/-- `process_task` (lines 591-689) after setup succeeds: run the parse
loop, then check the cancellation flag once more; if set, transition to
`cancelled` keeping `partial_results` as the persisted outcome, else to
`completed`.  (The final persistence calls write the record shown;
`save_results` is modelled separately.) -/
def process_task (f : Row → RowRes) (flag : Nat → Bool) (rows : List Row) : TaskState :=
  match process_excel f flag rows task_parsing with
  | (t2, results) =>
    if flag (valid_rows rows).length then
      { t2 with status := "cancelled",
                message := "已取消",
                result := some t2.partResults.length }
    else
      { t2 with status := "completed", progress := 100, message := "处理完成",
                result := some results.length }

/-- Behaviour of the parse loop when the cancellation flag becomes set at
the `m`-th row boundary while rows remain: the loop stops there, the task
record keeps exactly the first `m` row results, `processed_rows` is `m`,
the status field is untouched, and the loop reports the break. -/
theorem process_excel_rows_cancel (f : Row → RowRes) (m total : Nat) :
    ∀ (rs : List Row) (idx : Nat) (t : TaskState),
      idx ≤ m → m - idx < rs.length → t.processedRows = idx →
      (process_excel_rows f (cancel_flag_at (some m)) total rs idx t).1.partResults
          = t.partResults ++ ((rs.take (m - idx)).map f) ∧
      (process_excel_rows f (cancel_flag_at (some m)) total rs idx t).1.processedRows = m ∧
      (process_excel_rows f (cancel_flag_at (some m)) total rs idx t).1.status = t.status ∧
      (process_excel_rows f (cancel_flag_at (some m)) total rs idx t).2.2 = false := by
  intro rs
  induction rs with
  | nil =>
    intro idx t h1 h2 h3
    simp at h2
  | cons r rs ih =>
    intro idx t h1 h2 h3
    by_cases hm : m = idx
    · have hflag : cancel_flag_at (some m) idx = true := by
        simp [cancel_flag_at]; omega
      subst hm
      simp [process_excel_rows, progress_callback, hflag, h3]
    · have hlt : idx < m := by omega
      have hflag : cancel_flag_at (some m) idx = false := by
        simp [cancel_flag_at]; omega
      obtain ⟨k, hk⟩ : ∃ k, m - idx = k + 1 := ⟨m - idx - 1, by omega⟩
      have ihres := ih (idx + 1)
        ({ t with partResults := t.partResults ++ [f r],
                  totalRows := total,
                  processedRows := idx + 1,
                  progress := 15 + (idx + 1) * 75 / total,
                  message := "正在解析" })
        (by omega) (by simp at h2 ⊢; omega) rfl
      simp only [process_excel_rows, progress_callback, hflag, if_false, Bool.false_eq_true]
      rcases hrec : process_excel_rows f (cancel_flag_at (some m)) total rs (idx + 1)
          ({ t with partResults := t.partResults ++ [f r],
                    totalRows := total,
                    processedRows := idx + 1,
                    progress := 15 + (idx + 1) * 75 / total,
                    message := "正在解析" }) with ⟨t'', others, done⟩
      rw [hrec] at ihres
      simp only [hrec]
      refine ⟨?_, ?_, ?_, ?_⟩
      · rw [hk, List.take_succ_cons, List.map_cons]
        have := ihres.1
        simp only at this
        rw [this]
        have hk2 : m - (idx + 1) = k := by omega
        rw [hk2]
        simp
      · exact ihres.2.1
      · exact ihres.2.2.1
      · exact ihres.2.2.2

/-- C7: if the cancellation flag is set when the row-boundary check for the
`m`-th valid row runs (`m` rows already appended, rows remaining), the
in-flight row is not appended, the first `m` row results are preserved
unchanged, `processed_rows` stays `m`, and the task transitions to the
terminal status `cancelled`; no further row is appended after the flag is
observed set. -/
theorem C7_cancel_boundary (f : Row → RowRes) (rows : List Row) (m : Nat)
    (h : m < (valid_rows rows).length) :
    (process_task f (cancel_flag_at (some m)) rows).status = "cancelled" ∧
    (process_task f (cancel_flag_at (some m)) rows).partResults
      = ((valid_rows rows).take m).map f ∧
    (process_task f (cancel_flag_at (some m)) rows).processedRows = m := by
  have hloop := process_excel_rows_cancel f m (valid_rows rows).length (valid_rows rows) 0
    task_parsing (by omega) (by omega) rfl
  rcases hrec : process_excel_rows f (cancel_flag_at (some m)) (valid_rows rows).length
      (valid_rows rows) 0 task_parsing with ⟨t2, results, done⟩
  rw [hrec] at hloop
  have hflag : cancel_flag_at (some m) (valid_rows rows).length = true := by
    simp [cancel_flag_at]; omega
  simp only [process_task, process_excel, hrec, hflag, if_true]
  refine ⟨by trivial, ?_, ?_⟩
  · have := hloop.1
    simp only [task_parsing, initial_task] at this
    simpa using this
  · exact hloop.2.1

/-- Rows for the C7 witness: three valid rows and one skipped row with an
empty order id. -/
def rowsW : List Row :=
  [⟨"A1", []⟩, ⟨"", []⟩, ⟨"A2", []⟩, ⟨"A3", []⟩]

/-- A concrete per-row enrichment for the witnesses. -/
def fW : Row → RowRes := fun r => [("工单号", r.oid)]

/-- Witness for C7: cancelling at the boundary after two of the three valid
rows yields status `cancelled` with exactly the first two row results. -/
theorem C7_cancel_boundary_witness :
    2 < (valid_rows rowsW).length ∧
    ((process_task fW (cancel_flag_at (some 2)) rowsW).status = "cancelled" ∧
      (process_task fW (cancel_flag_at (some 2)) rowsW).partResults
        = ((valid_rows rowsW).take 2).map fW ∧
      (process_task fW (cancel_flag_at (some 2)) rowsW).processedRows = 2) :=
  ⟨by decide, C7_cancel_boundary fW rowsW 2 (by decide)⟩

/-! ## `main.py`: resume (`resume_task`, `resume_process_task`) -/

/-- The parameter list of `DataProcessor.process_excel`
(`def process_excel(self, excel_path, progress_callback=None)`). -/
def process_excel_params : List String := ["self", "excel_path", "progress_callback"]

/-- The keyword arguments `resume_process_task` passes to `process_excel`
through `asyncio.to_thread` (lines 394-400). -/
def resume_call_kwargs : List String := ["start_from_index", "existing_results"]

/-- CPython call binding for a function without a `**kwargs` catch-all: a
keyword argument whose name matches no parameter raises `TypeError`
instead of running the body. -/
def python_call {α : Type} (params : List String) (kwargs : List String) (run : Unit → α) :
    Except String α :=
  if kwargs.all (fun k => params.contains k) then Except.ok (run ())
  else Except.error ("TypeError: unexpected keyword argument")

/-- `resume_task` lines 316-328 followed by `resume_process_task` (lines
340-436): the task is reset to `processing` with the persisted
`partial_results` kept and the cancel flag cleared, the workbook is located
(setup assumed to succeed — failures there also end in `error`), and then
`process_excel` is called with the two resume keyword arguments; the
surrounding `try`/`except` turns any raise into status `error`. -/
def resume_process_task (f : Row → RowRes) (flag : Nat → Bool) (prev : TaskState)
    (rows : List Row) : TaskState :=
  let t0 : TaskState :=
    { prev with status := "processing", message := "正在恢复处理...",
                result := none, error := none, cancelled := false }
  let t1 : TaskState := { t0 with message := "正在继续处理...", progress := 15 }
  match python_call process_excel_params resume_call_kwargs
      (fun _ => process_excel f flag rows t1) with
  | Except.ok (t2, results) =>
    if flag (valid_rows rows).length then
      { t2 with status := "cancelled", result := some t2.partResults.length }
    else
      { t2 with status := "completed", progress := 100, message := "处理完成",
                result := some results.length }
  | Except.error e =>
    { t1 with status := "error", error := some e, message := "处理失败: " ++ e }

/-- C1: the resume path never reaches row processing.  `process_excel`
accepts no `start_from_index` or `existing_results` parameter, so the call
`resume_process_task` makes raises `TypeError`; the task ends in status
`error` with the persisted result sequence exactly as it was — in
particular its length never becomes the workbook's valid row count when
the task was cancelled part-way. -/
theorem C1_resume_call_raises (f : Row → RowRes) (flag : Nat → Bool)
    (prev : TaskState) (rows : List Row) :
    (resume_process_task f flag prev rows).status = "error" ∧
    (resume_process_task f flag prev rows).partResults = prev.partResults ∧
    (resume_process_task f flag prev rows).error
      = some ("TypeError: unexpected keyword argument") := by
  have hk : ¬ (∀ x ∈ resume_call_kwargs, x ∈ process_excel_params) := by decide
  refine ⟨?_, ?_, ?_⟩ <;> simp [resume_process_task, python_call, hk]

/-- `resume_task` lines 303-311: a resume request is accepted only when the
persisted status is `cancelled` or `error`; a missing persisted state is a
404 and any other status a 400 rejection. -/
def resume_task (loaded : Option TaskState) : Except String String :=
  match loaded with
  | none => Except.error ("404: 任务不存在或无法恢复")
  | some st =>
    if (["cancelled", "error"] : List String).contains st.status then
      Except.ok ("任务已恢复，正在继续处理...")
    else
      Except.error ("400: 无法继续处理")

/-- `Except` success test (the transport returning 2xx versus 4xx). -/
def isAccepted {ε α : Type} : Except ε α → Bool
  | Except.ok _ => true
  | Except.error _ => false

/-- C8: a resume request is accepted exactly when the task's persisted
status is `cancelled` or `error`; in particular `processing` and
`completed` tasks are rejected, so `completed` is terminal and a
`processing` task is never restarted concurrently. -/
theorem C8_resume_gating (st : TaskState) :
    (isAccepted (resume_task (some st)) = true ↔
      (st.status = "cancelled" ∨ st.status = "error")) ∧
    isAccepted (resume_task (some { st with status := "processing" })) = false ∧
    isAccepted (resume_task (some { st with status := "completed" })) = false ∧
    isAccepted (resume_task none) = false := by
  refine ⟨?_, by simp [resume_task, isAccepted], by simp [resume_task, isAccepted], rfl⟩
  by_cases h1 : st.status = "cancelled"
  · simp [resume_task, isAccepted, h1]
  · by_cases h2 : st.status = "error"
    · simp [resume_task, isAccepted, h1, h2]
    · simp [resume_task, isAccepted, h1, h2]
